import Mathlib

/-! TinyErode: caller-side grids, height-map generation, noise filter, erosion pipeline.

Shallow embedding of

* `src/example/main.cpp`: the four accessor lambdas (`getHeight`, `getWater`,
  `addWater`, `addHeight`) over the caller-owned `std::vector<float>` grids and
  `GenHeightMap`;
* `src/viewer/NoiseFilter.cpp`: `BlendMode` and `NoiseFilterImpl::generateNoise`;
* the pipeline stages of `TinyErode::Simulation` (`ComputeFlowAndTilt`,
  `TransportWater`, `TransportSediment`, `Evaporate`), whose header `TinyErode.h`
  is not among the source files and which are therefore modelled from the
  specification text.

Conventions.

* A `float` is a value of an ordered carrier `α` with its own zero, `+`, `−`, `·`
  and `/`.  The accessors and the flux, water-transport and evaporation stages
  assume no law of these operations.  The carrier `F32` is IEEE-754 binary32: every
  operation is the exact rational operation followed by rounding to nearest, ties
  to even (infinities and NaN are outside the model).  A linearly ordered field as
  carrier gives exact arithmetic; the sediment stage is stated over such a field.
  Statements say which arithmetic they are about.  Every definition is computable.
* A `std::vector<float>` is a `List α`; `v[i]` is `List.getD v i 0` and
  `v[i] = a` is `List.set v i a`.  Out-of-range subscripts are undefined behaviour
  in the source; every statement below is restricted to in-range cells and the
  index bounds are proved separately.
* `int` coordinates and dimensions are `Nat`: all statements assume `0 ≤ x < w`,
  `0 ≤ y < h`, and every intermediate integer is then bounded by `w * h`, the
  size the caller already allocated.
-/

namespace TinyErode

/-! ## `src/example/main.cpp`: accessors -/

section Accessors

variable {α : Type}

/-- The `std::max(a, b)` of the C++ standard library: `(a < b) ? b : a`. -/
def stdMax [LT α] [DecidableRel (fun a b : α => a < b)] (a b : α) : α :=
  if a < b then b else a

/-- The subscript `(y * w) + x` written in each of the four accessor lambdas. -/
def flatIndex (w x y : Nat) : Nat := (y * w) + x

/-- The two caller-owned buffers `heightMap` and `water` of `main`. -/
structure Grids (α : Type) where
  heightMap : List α
  water : List α

/-- The lambda `getHeight`: `return heightMap[(y * w) + x];`. -/
def getHeight [Zero α] (w : Nat) (g : Grids α) (x y : Nat) : α :=
  g.heightMap.getD (flatIndex w x y) 0

/-- The lambda `getWater`: `return water[(y * w) + x];`. -/
def getWater [Zero α] (w : Nat) (g : Grids α) (x y : Nat) : α :=
  g.water.getD (flatIndex w x y) 0

/-- The lambda `addWater`:
`return water[(y * w) + x] = std::max(0.0f, water[(y * w) + x] + waterDelta);`.
The first component is the returned value, the second the grids afterwards. -/
def addWater [LinearOrder α] [Zero α] [Add α]
    (w : Nat) (g : Grids α) (x y : Nat) (waterDelta : α) : α × Grids α :=
  let v := stdMax 0 (g.water.getD (flatIndex w x y) 0 + waterDelta)
  (v, { g with water := g.water.set (flatIndex w x y) v })

/-- The lambda `addHeight`: `heightMap[(y * w) + x] += deltaHeight;`. -/
def addHeight [Zero α] [Add α]
    (w : Nat) (g : Grids α) (x y : Nat) (deltaHeight : α) : Grids α :=
  { g with heightMap :=
      g.heightMap.set (flatIndex w x y) (g.heightMap.getD (flatIndex w x y) 0 + deltaHeight) }

/-- A finite sequence of `addWater(x, y, delta)` calls, issued one after the other. -/
def addWaterCalls [LinearOrder α] [Zero α] [Add α]
    (w : Nat) (g : Grids α) (calls : List (Nat × Nat × α)) : Grids α :=
  calls.foldl (fun g c => (addWater w g c.1 c.2.1 c.2.2).2) g

end Accessors

/-! ## `src/example/main.cpp`: `GenHeightMap` -/

section GenHeightMap

variable {α : Type}

/-- The local `int minDim = std::min(w, h);`. -/
def minDim (w h : Nat) : Nat := min w h

/-- The local `xOffset`: initialised to `0`, set to `(w - h) / 2` in the branch `w > h`. -/
def xOffset (w h : Nat) : Nat := if w > h then (w - h) / 2 else 0

/-- The local `yOffset`: initialised to `0`, set to `(h - w) / 2` in the `else` branch. -/
def yOffset (w h : Nat) : Nat := if w > h then 0 else (h - w) / 2

/-- The local `dstIndex = ((y + yOffset) * w) + (x + xOffset)` with `x = i % minDim`,
`y = i / minDim`, as computed in iteration `i` of the loop of `GenHeightMap`. -/
def dstIndex (w h i : Nat) : Nat :=
  let x := i % minDim w h
  let y := i / minDim w h
  ((y + yOffset w h) * w) + (x + xOffset w h)

/-- The function `GenHeightMap`: `for (int i = 0; i < (minDim * minDim); i++) heightMap[dstIndex] = …`.
The stored value `sin(v·π)·sin(u·π)·maxHeight + noiseDist(rng)` of iteration `i`
is the parameter `pixel i` (it is a function of `i` and of the generator state
reached after `i` draws). -/
def GenHeightMap (w h : Nat) (heightMap : List α) (pixel : Nat → α) : List α :=
  (List.range (minDim w h * minDim w h)).foldl
    (fun hm i => hm.set (dstIndex w h i) (pixel i)) heightMap

end GenHeightMap

/-! ## `src/viewer/NoiseFilter.cpp` -/

section NoiseFilter

variable {α : Type}

/-- The enumeration `FastNoiseLite::NoiseType`, the six values handled by `toString` / `toIndex`. -/
inductive NoiseType where
  | OpenSimplex2
  | OpenSimplex2S
  | Cellular
  | Perlin
  | ValueCubic
  | Value
  deriving DecidableEq, Repr

/-- The enumeration `enum class BlendMode { Replace, Multiply, Add, Subtract }`. -/
inductive BlendMode where
  | Replace
  | Multiply
  | Add
  | Subtract
  deriving DecidableEq, Repr

/-- The data members of `class NoiseFilterImpl`. -/
structure NoiseFilterImpl where
  seed : Int
  noiseType : NoiseType
  blendMode : BlendMode

/-- A member call on the `Terrain&` argument that can modify the terrain.  The only
one occurring in `generateNoise` is `terrain.setHeightMap(data, w, h)`;
`terrain.width()` and `terrain.height()` are reads. -/
inductive TerrainCall (α : Type) where
  | setHeightMap (data : List α) (w h : Nat)

/-- The buffer filled by the loop of `generateNoise`: starting from
`std::vector<float> heightMap(w * h, 0.0f)`, iteration `i` stores
`noise.GetNoise(float(i % w), float(i / w))` at index `i`. -/
def noiseBuffer [Zero α] (GetNoise : Nat → Nat → α) (w h : Nat) : List α :=
  (List.range (w * h)).foldl
    (fun hm i => hm.set i (GetNoise (i % w) (i / w))) (List.replicate (w * h) 0)

/-- The member function `NoiseFilterImpl::generateNoise(Terrain& terrain)`, with `w = terrain.width()`
and `h = terrain.height()`.  `GetNoise seed noiseType x y` is what
`noise.GetNoise(float(x), float(y))` returns after `SetSeed(seed)` and
`SetNoiseType(noiseType)`.  The result is the sequence of modifying calls made
on `terrain`; the `switch` has a single case, `BlendMode::Replace`. -/
def generateNoise [Zero α] (self : NoiseFilterImpl)
    (GetNoise : Int → NoiseType → Nat → Nat → α) (w h : Nat) : List (TerrainCall α) :=
  let heightMap := noiseBuffer (GetNoise self.seed self.noiseType) w h
  match self.blendMode with
  | BlendMode.Replace => [TerrainCall.setHeightMap heightMap w h]
  | _ => []

/-- The terrain after a sequence of modifying calls, for an arbitrary
implementation `setHeightMap` of `Terrain::setHeightMap` on a terrain type `τ`. -/
def applyCalls {τ : Type} (setHeightMap : τ → List α → Nat → Nat → τ)
    (terrain : τ) (calls : List (TerrainCall α)) : τ :=
  calls.foldl (fun t c => match c with
    | TerrainCall.setHeightMap data w h => setHeightMap t data w h) terrain

end NoiseFilter

/-! ## `TinyErode::Simulation` pipeline stages

The flux and water stages are written over any carrier with its own operations:
with `F32` they round as the `float` program does, with an ordered field they are
exact.  Each formula is evaluated in the order in which the specification writes
it, one operation at a time. -/

section Engine

variable {α : Type}

/-- Modelled from the spec: the header `TinyErode.h` is missing; these are the
physical parameters of section 3 (`timeStep`, `metersPerX`, `metersPerY`,
`pipeCrossSection`, `gravity`, `minTilt`). -/
structure Params (α : Type) where
  timeStep : α
  metersPerX : α
  metersPerY : α
  pipeCrossSection : α
  gravity : α
  minTilt : α

/-- Modelled from the spec: the header `TinyErode.h` is missing; "for each cell"
of sections 4.2 to 4.6, as the row-major double loop over `0 ≤ y < h`, `0 ≤ x < w`. -/
def forEachCell {σ : Type} (w h : Nat) (body : σ → Nat → Nat → σ) (s : σ) : σ :=
  (List.range h).foldl (fun s y => (List.range w).foldl (fun s x => body s x y) s) s

/-- Modelled from the spec: the header `TinyErode.h` is missing; section 4.4,
`C(c) = carryCapacityK(c) · T(c) · |V(c)|`, with the 2-norm `|V(c)|` of the
velocity supplied as `speed`. -/
def capacity [LinearOrderedField α] (carryCapacityK T speed : α) : α :=
  carryCapacityK * T * speed

/-- Modelled from the spec: the header `TinyErode.h` is missing; `n` is the 2-norm
of the vector `(vx, vy)`: non-negative with `n² = vx² + vy²`. -/
def IsNorm2 [LinearOrderedField α] (vx vy n : α) : Prop :=
  0 ≤ n ∧ n * n = vx * vx + vy * vy

/-- Modelled from the spec: the header `TinyErode.h` is missing; section 4.4, the
erosion/deposition step of one cell.  The result is the new sediment of the cell
and the height delta accumulated for `addHeight`: `(S + E, −E)` with
`E = erosionK · (C − S)` when `C > S`, `(S − D, +D)` with
`D = depositionK · (S − C)` when `C < S`, no change when equal. -/
def erodeDeposit [LinearOrderedField α] (C S depositionK erosionK : α) : α × α :=
  if C > S then
    let E := erosionK * (C - S)
    (S + E, -E)
  else if C < S then
    let D := depositionK * (S - C)
    (S - D, D)
  else (S, 0)

/-- Modelled from the spec: the header `TinyErode.h` is missing; section 4.4, the
sediment field after the erosion/deposition step. -/
def erodedSediment [LinearOrderedField α]
    (carryCapacityK depositionK erosionK T speed S : Nat → Nat → α) (x y : Nat) : α :=
  (erodeDeposit (capacity (carryCapacityK x y) (T x y) (speed x y)) (S x y)
    (depositionK x y) (erosionK x y)).1

/-- Modelled from the spec: the header `TinyErode.h` is missing; section 4.4, the
height delta of a cell accumulated by the erosion/deposition step. -/
def heightDelta [LinearOrderedField α]
    (carryCapacityK depositionK erosionK T speed S : Nat → Nat → α) (x y : Nat) : α :=
  (erodeDeposit (capacity (carryCapacityK x y) (T x y) (speed x y)) (S x y)
    (depositionK x y) (erosionK x y)).2

/-- Modelled from the spec: the header `TinyErode.h` is missing; section 4.4, "out-of-range
`p` (any component < 0 or ≥ `w` / `h`) is clamped to the nearest edge", for one
component and a grid extent of `n` cells. -/
def clampCoord [LinearOrderedField α] (n : Nat) (p : α) : α :=
  if p < 0 then 0 else if p ≥ (n : α) then (n : α) - 1 else p

/-- Modelled from the spec: the header `TinyErode.h` is missing; section 4.4, "sample
`S` at `p` with bilinear interpolation": the four cells around the clamped
position, the upper neighbour index clamped to the last row/column, blended with
the fractional parts of the position. -/
def sampleBilinear [LinearOrderedField α] [FloorRing α] (w h : Nat)
    (S : Nat → Nat → α) (px py : α) : α :=
  let cx := clampCoord w px
  let cy := clampCoord h py
  let x0 := Nat.floor cx
  let y0 := Nat.floor cy
  let x1 := min (x0 + 1) (w - 1)
  let y1 := min (y0 + 1) (h - 1)
  let tx := cx - (x0 : α)
  let ty := cy - (y0 : α)
  (1 - ty) * ((1 - tx) * S x0 y0 + tx * S x1 y0)
    + ty * ((1 - tx) * S x0 y1 + tx * S x1 y1)

/-- Modelled from the spec: the header `TinyErode.h` is missing; section 4.4,
semi-Lagrangian advection: the new field `S'` at `c = (x, y)` is `S` sampled at
`p = (x − Vx(c)·Δt / metersPerX, y − Vy(c)·Δt / metersPerY)`. -/
def advect [LinearOrderedField α] [FloorRing α] (P : Params α) (w h : Nat)
    (Vx Vy S : Nat → Nat → α) (x y : Nat) : α :=
  sampleBilinear w h S ((x : α) - Vx x y * P.timeStep / P.metersPerX)
    ((y : α) - Vy x y * P.timeStep / P.metersPerY)

/-- Modelled from the spec: the header `TinyErode.h` is missing;
`TransportSediment(carryCapacityK, depositionK, erosionK, addHeight)` of section
4.4: erosion/deposition of every cell, the accumulated height deltas flushed
through `addHeight`, then advection of the sediment into a new field that
replaces `S`.  The result is the new sediment field and the grids afterwards. -/
def TransportSediment [LinearOrderedField α] [FloorRing α] (P : Params α) (w h : Nat)
    (carryCapacityK depositionK erosionK T speed Vx Vy S : Nat → Nat → α)
    (g : Grids α) : (Nat → Nat → α) × Grids α :=
  let S1 := erodedSediment carryCapacityK depositionK erosionK T speed S
  let g1 := forEachCell w h
    (fun g x y => addHeight w g x y
      (heightDelta carryCapacityK depositionK erosionK T speed S x y)) g
  (advect P w h Vx Vy S1, g1)

end Engine

/-! ## The `float` type: IEEE-754 binary32 with round-to-nearest-even -/

section Float32

/-- Round to nearest, ties to even, of the non-negative fraction `n / d` (`d > 0`)
to a natural number. -/
def roundHalfEven (n d : Nat) : Nat :=
  let q := n / d
  let r := n % d
  if 2 * r < d then q else if d < 2 * r then q + 1 else if q % 2 = 0 then q else q + 1

/-- The index of the leading binary digit of `n` (`⌊log₂ n⌋` for `n ≥ 1`), by
repeated halving; the first argument bounds the number of halvings. -/
def bitLog : Nat → Nat → Nat
  | 0, _ => 0
  | fuel + 1, n => if 2 ≤ n then bitLog fuel (n / 2) + 1 else 0

/-- The binary exponent `⌊log₂ (n / d)⌋` of a positive fraction: the difference of
the leading-digit indices, lowered by one when `n / d` is below that power of two. -/
def ilog2 (n d : Nat) : Int :=
  let e0 : Int := (bitLog n n : Int) - (bitLog d d : Int)
  if 0 ≤ e0 then (if d * 2 ^ e0.toNat ≤ n then e0 else e0 - 1)
  else (if d ≤ n * 2 ^ (-e0).toNat then e0 else e0 - 1)

/-- The binary32 value nearest to the rational `q`, ties to even: a 24-bit
significand, the unit in the last place `2 ^ (e - 23)` for the binary exponent
`e` of `q`, and the exponent floor `-126` of the subnormal range.  Overflow to
infinity is outside the model: the exponent is not bounded above. -/
def rnd32 (q : ℚ) : ℚ :=
  if q = 0 then 0 else
  let n := q.num.natAbs
  let d := q.den
  let k := max (ilog2 n d) (-126) - 23
  let m := if 0 ≤ k then roundHalfEven n (d * 2 ^ k.toNat)
    else roundHalfEven (n * 2 ^ (-k).toNat) d
  let a : ℚ := if 0 ≤ k then ((m * 2 ^ k.toNat : Nat) : ℚ) else mkRat m (2 ^ (-k).toNat)
  if q < 0 then -a else a

/-- A finite `float` of the program (32-bit floating point, section 3 of the
specification), carried as the rational it denotes.  Infinities and NaN are
outside the model. -/
structure F32 where
  val : ℚ
  deriving DecidableEq

/-- The `float` zero. -/
instance F32.instZero : Zero F32 := ⟨F32.mk 0⟩

/-- The `float` addition: the exact sum, rounded. -/
instance F32.instAdd : Add F32 := ⟨fun a b => F32.mk (rnd32 (a.val + b.val))⟩

/-- The `float` subtraction: the exact difference, rounded. -/
instance F32.instSub : Sub F32 := ⟨fun a b => F32.mk (rnd32 (a.val - b.val))⟩

/-- The `float` multiplication: the exact product, rounded. -/
instance F32.instMul : Mul F32 := ⟨fun a b => F32.mk (rnd32 (a.val * b.val))⟩

/-- The `float` division by a non-zero divisor: the exact quotient, rounded. -/
instance F32.instDiv : Div F32 := ⟨fun a b => F32.mk (rnd32 (a.val / b.val))⟩

/-- The `float` negation, which is exact. -/
instance F32.instNeg : Neg F32 := ⟨fun a => F32.mk (-a.val)⟩

/-- The order of `float` values is the order of the rationals they denote. -/
instance F32.instLinearOrder : LinearOrder F32 :=
  LinearOrder.lift' F32.val (fun a b hab => by cases a; cases b; simp_all)

/-- Comparison of `float` values is decided on the rationals they denote. -/
instance F32.instDecidableLe (a b : F32) : Decidable (a ≤ b) :=
  inferInstanceAs (Decidable (a.val ≤ b.val))

end Float32

/-! ## Concrete instances over `ℚ` and over `float` -/

section Instances

/-- Modelled from the spec: the header `TinyErode.h` is missing; the default
parameters of the table of section 3: `timeStep = 0.1`,
unit cell size, unit pipe cross-section, `gravity = 9.81`, `minTilt = 0.001`. -/
def defaultParams : Params ℚ :=
  { timeStep := 1 / 10, metersPerX := 1, metersPerY := 1, pipeCrossSection := 1,
    gravity := 981 / 100, minTilt := 1 / 1000 }

/-- A `2 × 2` pair of grids: a sloped height map and water drawn from `[0.1, 0.2)`. -/
def slopedGrids : Grids ℚ :=
  { heightMap := [10, 9, 8, 7], water := [1 / 10, 9 / 50, 3 / 20, 1 / 10] }

/-- A constant per-cell field. -/
def constField (c : ℚ) : Nat → Nat → ℚ := fun _ _ => c

end Instances

/-! ## Properties of the accessors -/

section AccessorLemmas

variable {α : Type}

theorem stdMax_eq_max [LinearOrder α] (a b : α) : stdMax a b = max a b := by
  unfold stdMax
  rcases lt_trichotomy a b with h | h | h
  · rw [if_pos h, max_eq_right h.le]
  · subst h
    simp
  · rw [if_neg (not_lt.mpr h.le), max_eq_left h.le]

theorem stdMax_zero_nonneg [LinearOrder α] [Zero α] (b : α) : 0 ≤ stdMax 0 b := by
  rw [stdMax_eq_max]
  exact le_max_left 0 b

theorem flatIndex_lt {w h x y : Nat} (hx : x < w) (hy : y < h) : flatIndex w x y < w * h := by
  unfold flatIndex
  have h1 : (y + 1) * w ≤ h * w := Nat.mul_le_mul_right w hy
  rw [Nat.add_mul, Nat.one_mul] at h1
  rw [Nat.mul_comm w h]
  omega

theorem flatIndex_mod {w x : Nat} (y : Nat) (hx : x < w) : flatIndex w x y % w = x := by
  unfold flatIndex
  rw [Nat.mul_comm, Nat.mul_add_mod, Nat.mod_eq_of_lt hx]

theorem flatIndex_div {w x : Nat} (y : Nat) (hx : x < w) : flatIndex w x y / w = y := by
  unfold flatIndex
  have hw : 0 < w := by omega
  rw [Nat.mul_comm, Nat.mul_add_div hw, Nat.div_eq_of_lt hx, Nat.add_zero]

theorem flatIndex_inj {w x y x' y' : Nat} (hx : x < w) (hx' : x' < w)
    (e : flatIndex w x y = flatIndex w x' y') : x = x' ∧ y = y' := by
  constructor
  · rw [← flatIndex_mod y hx, e, flatIndex_mod y' hx']
  · rw [← flatIndex_div y hx, e, flatIndex_div y' hx']

theorem getD_set_self (l : List α) (i : Nat) (a d : α) (hi : i < l.length) :
    (l.set i a).getD i d = a := by
  rw [List.getD_eq_getElem?_getD, List.getElem?_set_self hi]
  rfl

theorem getD_set_ne (l : List α) {i j : Nat} (a d : α) (hij : i ≠ j) :
    (l.set i a).getD j d = l.getD j d := by
  rw [List.getD_eq_getElem?_getD, List.getD_eq_getElem?_getD, List.getElem?_set_ne hij]

theorem addWater_water_length [LinearOrder α] [Zero α] [Add α]
    (w : Nat) (g : Grids α) (x y : Nat) (d : α) :
    (addWater w g x y d).2.water.length = g.water.length := by
  simp [addWater]

theorem addWater_heightMap [LinearOrder α] [Zero α] [Add α]
    (w : Nat) (g : Grids α) (x y : Nat) (d : α) :
    (addWater w g x y d).2.heightMap = g.heightMap := rfl

theorem addWater_nonneg [LinearOrder α] [Zero α] [Add α]
    (w : Nat) (g : Grids α) (x y : Nat) (d : α) (hg : ∀ v ∈ g.water, 0 ≤ v) :
    ∀ v ∈ (addWater w g x y d).2.water, 0 ≤ v := by
  intro v hv
  rcases List.mem_or_eq_of_mem_set hv with h | h
  · exact hg v h
  · rw [h]
    exact stdMax_zero_nonneg _

theorem getWater_addWater_ne [LinearOrder α] [Zero α] [Add α]
    {w : Nat} (g : Grids α) {x y x' y' : Nat} (d : α)
    (hx : x < w) (hx' : x' < w) (hne : ¬ (x' = x ∧ y' = y)) :
    getWater w (addWater w g x y d).2 x' y' = getWater w g x' y' := by
  unfold getWater addWater
  simp only
  apply getD_set_ne
  intro e
  have := flatIndex_inj hx hx' e
  exact hne ⟨this.1.symm, this.2.symm⟩

theorem getHeight_addHeight_ne [Zero α] [Add α]
    {w : Nat} (g : Grids α) {x y x' y' : Nat} (d : α)
    (hx : x < w) (hx' : x' < w) (hne : ¬ (x' = x ∧ y' = y)) :
    getHeight w (addHeight w g x y d) x' y' = getHeight w g x' y' := by
  unfold getHeight addHeight
  simp only
  apply getD_set_ne
  intro e
  have := flatIndex_inj hx hx' e
  exact hne ⟨this.1.symm, this.2.symm⟩

theorem addWaterCalls_nonneg [LinearOrder α] [Zero α] [Add α]
    (w : Nat) (calls : List (Nat × Nat × α)) :
    ∀ g : Grids α, (∀ v ∈ g.water, 0 ≤ v) → ∀ v ∈ (addWaterCalls w g calls).water, 0 ≤ v := by
  induction calls with
  | nil => intro g hg; exact hg
  | cons c cs ih =>
    intro g hg
    exact ih _ (addWater_nonneg w g c.1 c.2.1 c.2.2 hg)

/-- C1: starting from a water grid of `w * h` entries that are all `≥ 0`, after
every call of any finite sequence of `addWater(x, y, delta)` calls on in-range
cells, with arbitrary deltas, every entry of the water grid is `≥ 0`. -/
theorem addWater_keeps_water_nonneg [LinearOrder α] [Zero α] [Add α]
    (w h : Nat) (g : Grids α) (calls : List (Nat × Nat × α))
    (hlen : g.water.length = w * h)
    (hg : ∀ v ∈ g.water, 0 ≤ v)
    (_hcalls : ∀ c ∈ calls, c.1 < w ∧ c.2.1 < h) :
    ∀ k : Nat, (addWaterCalls w g (calls.take k)).water.length = w * h ∧
      ∀ v ∈ (addWaterCalls w g (calls.take k)).water, 0 ≤ v := by
  intro k
  refine ⟨?_, addWaterCalls_nonneg w (calls.take k) g hg⟩
  clear _hcalls hg
  generalize calls.take k = cs
  induction cs generalizing g with
  | nil => exact hlen
  | cons c cs ih =>
    exact ih _ (by rw [addWater_water_length]; exact hlen)

theorem addWater_keeps_water_nonneg_witness :
    (addWaterCalls 2 (Grids.mk [0, 0, 0, 0] [(1 : ℚ) / 10, 1 / 5, 0, 3])
        ([(0, 0, -1), (1, 1, -2), (1, 0, 5)].take 2)).water.length = 2 * 2 ∧
      ∀ v ∈ (addWaterCalls 2 (Grids.mk [0, 0, 0, 0] [(1 : ℚ) / 10, 1 / 5, 0, 3])
        ([(0, 0, -1), (1, 1, -2), (1, 0, 5)].take 2)).water, 0 ≤ v :=
  addWater_keeps_water_nonneg 2 2 (Grids.mk [0, 0, 0, 0] [(1 : ℚ) / 10, 1 / 5, 0, 3])
    [(0, 0, -1), (1, 1, -2), (1, 0, 5)] (by decide)
    (by intro v hv; simp at hv; rcases hv with h | h | h | h <;> rw [h] <;> norm_num)
    (by intro c hc; simp at hc; rcases hc with h | h | h <;> rw [h] <;> decide) 2

/-- C2: on a water grid of `w * h` entries and an in-range cell `(x, y)`,
`addWater(x, y, delta)` stores `max(0, old + delta)` at flat index `y * w + x`,
where `old` is the entry stored there before, and returns the value that
`getWater(x, y)` reads immediately afterwards. -/
theorem addWater_postcondition [LinearOrder α] [Zero α] [Add α]
    (w h : Nat) (g : Grids α) (x y : Nat) (delta old : α)
    (hlen : g.water.length = w * h) (hx : x < w) (hy : y < h)
    (hold : g.water[y * w + x]? = some old) :
    (addWater w g x y delta).2.water[y * w + x]? = some (max 0 (old + delta)) ∧
      (addWater w g x y delta).1 = getWater w (addWater w g x y delta).2 x y := by
  have hi : flatIndex w x y < g.water.length := by rw [hlen]; exact flatIndex_lt hx hy
  have hd : g.water.getD (flatIndex w x y) 0 = old := by
    rw [List.getD_eq_getElem?_getD]
    show (g.water[y * w + x]?).getD 0 = old
    rw [hold]
    rfl
  constructor
  · show ((g.water.set (flatIndex w x y) _)[flatIndex w x y]?) = _
    rw [List.getElem?_set_self hi, hd, stdMax_eq_max]
  · show _ = (List.set _ _ _).getD _ _
    rw [getD_set_self _ _ _ _ hi]
    rfl

theorem addWater_postcondition_witness :
    (addWater 2 (Grids.mk [0, 0, 0, 0] [(1 : ℚ), 2, 3, 4]) 1 1 (-6)).2.water[1 * 2 + 1]?
        = some (max 0 ((4 : ℚ) + (-6))) ∧
      (addWater 2 (Grids.mk [0, 0, 0, 0] [(1 : ℚ), 2, 3, 4]) 1 1 (-6)).1
        = getWater 2 (addWater 2 (Grids.mk [0, 0, 0, 0] [(1 : ℚ), 2, 3, 4]) 1 1 (-6)).2 1 1 :=
  addWater_postcondition 2 2 (Grids.mk [0, 0, 0, 0] [(1 : ℚ), 2, 3, 4]) 1 1 (-6) 4
    (by decide) (by decide) (by decide) (by rfl)

/-- C8: for `w ≥ 1`, `h ≥ 1` and an in-range cell `(x, y)`, the flat index
`y * w + x` is below `w * h`; two in-range cells with the same flat index are the
same cell; `addWater(x, y, d)` and `addHeight(x, y, d)` leave what `getWater` and
`getHeight` read at every other in-range cell unchanged; `addWater` leaves the
whole height grid unchanged and `addHeight` the whole water grid. -/
theorem accessors_cell_local [LinearOrder α] [Zero α] [Add α]
    (w h x y : Nat) (_hw : 1 ≤ w) (_hh : 1 ≤ h) (hx : x < w) (hy : y < h) :
    y * w + x < w * h ∧
    (∀ x' y' : Nat, x' < w → y' < h → y' * w + x' = y * w + x → x' = x ∧ y' = y) ∧
    (∀ (g : Grids α) (d : α) (x' y' : Nat), x' < w → y' < h → ¬ (x' = x ∧ y' = y) →
      getWater w (addWater w g x y d).2 x' y' = getWater w g x' y' ∧
      getHeight w (addWater w g x y d).2 x' y' = getHeight w g x' y' ∧
      getWater w (addHeight w g x y d) x' y' = getWater w g x' y' ∧
      getHeight w (addHeight w g x y d) x' y' = getHeight w g x' y') ∧
    (∀ (g : Grids α) (d : α),
      (addWater w g x y d).2.heightMap = g.heightMap ∧
      (addHeight w g x y d).water = g.water) := by
  refine ⟨flatIndex_lt hx hy, ?_, ?_, ?_⟩
  · intro x' y' hx' _ e
    exact flatIndex_inj hx' hx e
  · intro g d x' y' hx' _ hne
    exact ⟨getWater_addWater_ne g d hx hx' hne, rfl, rfl, getHeight_addHeight_ne g d hx hx' hne⟩
  · intro g d
    exact ⟨rfl, rfl⟩

theorem accessors_cell_local_witness :
    (1 ≤ 3 ∧ 1 ≤ 2 ∧ 2 < 3 ∧ 1 < 2) ∧
    (1 * 3 + 2 < 3 * 2 ∧
    (∀ x' y' : Nat, x' < 3 → y' < 2 → y' * 3 + x' = 1 * 3 + 2 → x' = 2 ∧ y' = 1) ∧
    (∀ (g : Grids ℚ) (d : ℚ) (x' y' : Nat), x' < 3 → y' < 2 → ¬ (x' = 2 ∧ y' = 1) →
      getWater 3 (addWater 3 g 2 1 d).2 x' y' = getWater 3 g x' y' ∧
      getHeight 3 (addWater 3 g 2 1 d).2 x' y' = getHeight 3 g x' y' ∧
      getWater 3 (addHeight 3 g 2 1 d) x' y' = getWater 3 g x' y' ∧
      getHeight 3 (addHeight 3 g 2 1 d) x' y' = getHeight 3 g x' y') ∧
    (∀ (g : Grids ℚ) (d : ℚ),
      (addWater 3 g 2 1 d).2.heightMap = g.heightMap ∧
      (addHeight 3 g 2 1 d).water = g.water)) :=
  ⟨by decide, accessors_cell_local 3 2 2 1 (by decide) (by decide) (by decide) (by decide)⟩

end AccessorLemmas

/-! ## Loops that store one value per iteration -/

section StoreLoops

variable {α : Type}

theorem foldl_set_length (f : Nat → Nat) (p : Nat → α) (n : Nat) (l : List α) :
    ((List.range n).foldl (fun hm i => hm.set (f i) (p i)) l).length = l.length := by
  induction n with
  | zero => rfl
  | succ n ih =>
    rw [List.range_succ, List.foldl_append]
    simp only [List.foldl_cons, List.foldl_nil, List.length_set]
    exact ih

theorem foldl_set_untouched (f : Nat → Nat) (p : Nat → α) (n : Nat) (l : List α) (j : Nat)
    (hj : ∀ i, i < n → f i ≠ j) :
    ((List.range n).foldl (fun hm i => hm.set (f i) (p i)) l)[j]? = l[j]? := by
  induction n with
  | zero => rfl
  | succ n ih =>
    rw [List.range_succ, List.foldl_append]
    simp only [List.foldl_cons, List.foldl_nil]
    rw [List.getElem?_set_ne (hj n (Nat.lt_succ_self n))]
    exact ih (fun i hi => hj i (Nat.lt_succ_of_lt hi))

theorem foldl_set_written (f : Nat → Nat) (p : Nat → α) (n : Nat) (l : List α) (i : Nat)
    (hi : i < n) (hlater : ∀ k, k < n → i < k → f k ≠ f i) (hlen : f i < l.length) :
    ((List.range n).foldl (fun hm i => hm.set (f i) (p i)) l)[f i]? = some (p i) := by
  induction n with
  | zero => omega
  | succ n ih =>
    rw [List.range_succ, List.foldl_append]
    simp only [List.foldl_cons, List.foldl_nil]
    rcases Nat.lt_succ_iff_lt_or_eq.mp hi with h | h
    · rw [List.getElem?_set_ne (hlater n (Nat.lt_succ_self n) h)]
      exact ih h (fun k hk hik => hlater k (Nat.lt_succ_of_lt hk) hik)
    · subst h
      rw [List.getElem?_set_self]
      rw [foldl_set_length]
      exact hlen

end StoreLoops

/-! ## Properties of `GenHeightMap` -/

section GenHeightMapLemmas

variable {α : Type}

theorem dstIndex_eq (w h i : Nat) :
    dstIndex w h i
      = flatIndex w (i % minDim w h + xOffset w h) (i / minDim w h + yOffset w h) := rfl

theorem minDim_pos {w h : Nat} (hw : 1 ≤ w) (hh : 1 ≤ h) : 0 < minDim w h := by
  unfold minDim
  omega

theorem dst_x_lt {w h : Nat} (hw : 1 ≤ w) (hh : 1 ≤ h) (i : Nat) :
    i % minDim w h + xOffset w h < w := by
  have hm := Nat.mod_lt i (minDim_pos hw hh)
  unfold minDim xOffset at *
  split_ifs <;> omega

theorem dst_y_lt {w h : Nat} (_hw : 1 ≤ w) (_hh : 1 ≤ h) {i : Nat}
    (hi : i < minDim w h * minDim w h) : i / minDim w h + yOffset w h < h := by
  have hm := Nat.div_lt_of_lt_mul hi
  unfold minDim yOffset at *
  split_ifs <;> omega

theorem dstIndex_lt {w h : Nat} (hw : 1 ≤ w) (hh : 1 ≤ h) {i : Nat}
    (hi : i < minDim w h * minDim w h) : dstIndex w h i < w * h := by
  rw [dstIndex_eq]
  exact flatIndex_lt (dst_x_lt hw hh i) (dst_y_lt hw hh hi)

theorem dstIndex_inj {w h : Nat} (hw : 1 ≤ w) (hh : 1 ≤ h) {i j : Nat}
    (e : dstIndex w h i = dstIndex w h j) : i = j := by
  rw [dstIndex_eq, dstIndex_eq] at e
  have hxy := flatIndex_inj (dst_x_lt hw hh i) (dst_x_lt hw hh j) e
  have h1 : i % minDim w h = j % minDim w h := by omega
  have h2 : i / minDim w h = j / minDim w h := by omega
  rw [← Nat.div_add_mod i (minDim w h), ← Nat.div_add_mod j (minDim w h), h1, h2]

theorem dstIndex_ne_outside {w h : Nat} (hw : 1 ≤ w) (hh : 1 ≤ h) {x y : Nat} (hx : x < w)
    (hout : ¬ (xOffset w h ≤ x ∧ x < xOffset w h + minDim w h ∧
      yOffset w h ≤ y ∧ y < yOffset w h + minDim w h))
    {i : Nat} (hi : i < minDim w h * minDim w h) : dstIndex w h i ≠ y * w + x := by
  intro e
  rw [dstIndex_eq] at e
  obtain ⟨h1, h2⟩ := flatIndex_inj (dst_x_lt hw hh i) hx e
  have hm := Nat.mod_lt i (minDim_pos hw hh)
  have hd := Nat.div_lt_of_lt_mul hi
  apply hout
  generalize i / minDim w h = q at h2 hd
  generalize i % minDim w h = r at h1 hm
  omega

theorem xOffset_eq (w h : Nat) : xOffset w h = (w - min w h) / 2 := by
  unfold xOffset
  split_ifs with hc
  · rw [Nat.min_eq_right (Nat.le_of_lt hc)]
  · rw [Nat.min_eq_left (Nat.le_of_not_lt hc), Nat.sub_self]

theorem yOffset_eq (w h : Nat) : yOffset w h = (h - min w h) / 2 := by
  unfold yOffset
  split_ifs with hc
  · rw [Nat.min_eq_right (Nat.le_of_lt hc), Nat.sub_self]
  · rw [Nat.min_eq_left (Nat.le_of_not_lt hc)]

theorem dstIndex_explicit (w h i : Nat) :
    dstIndex w h i
      = ((i / min w h) + (h - min w h) / 2) * w + ((i % min w h) + (w - min w h) / 2) := by
  rw [← xOffset_eq, ← yOffset_eq]
  rfl

/-- C9: for `w ≥ 1`, `h ≥ 1` and a height map of `w * h` entries, `GenHeightMap`
uses `minDim = min(w, h)` and the offsets `((w − minDim) / 2, (h − minDim) / 2)`,
which centre the `minDim × minDim` square (the margins on either side differ by
at most one cell); every `i < minDim * minDim` gives the destination index
`((i / minDim) + yOffset) * w + ((i % minDim) + xOffset)`, which lies below
`w * h`; distinct `i` give distinct destination indices; every entry whose cell
lies outside the centred square keeps its previous value; the entry of the cell
`(x + xOffset, y + yOffset)` of the square holds the value of iteration
`y * minDim + x`; and the buffer keeps its size. -/
theorem GenHeightMap_writes_centred_square (w h : Nat) (heightMap : List α) (pixel : Nat → α)
    (hw : 1 ≤ w) (hh : 1 ≤ h) (hlen : heightMap.length = w * h) :
    (minDim w h = min w h ∧ xOffset w h = (w - min w h) / 2 ∧
      yOffset w h = (h - min w h) / 2) ∧
    (2 * ((w - min w h) / 2) + min w h ≤ w ∧ w ≤ 2 * ((w - min w h) / 2) + min w h + 1 ∧
      2 * ((h - min w h) / 2) + min w h ≤ h ∧ h ≤ 2 * ((h - min w h) / 2) + min w h + 1) ∧
    (∀ i, i < min w h * min w h →
      dstIndex w h i
        = ((i / min w h) + (h - min w h) / 2) * w + ((i % min w h) + (w - min w h) / 2) ∧
      ((i / min w h) + (h - min w h) / 2) * w + ((i % min w h) + (w - min w h) / 2) < w * h) ∧
    (∀ i j, i < min w h * min w h → j < min w h * min w h →
      ((i / min w h) + (h - min w h) / 2) * w + ((i % min w h) + (w - min w h) / 2)
        = ((j / min w h) + (h - min w h) / 2) * w + ((j % min w h) + (w - min w h) / 2) →
      i = j) ∧
    (∀ x y, x < w → y < h →
      ¬ ((w - min w h) / 2 ≤ x ∧ x < (w - min w h) / 2 + min w h ∧
        (h - min w h) / 2 ≤ y ∧ y < (h - min w h) / 2 + min w h) →
      (GenHeightMap w h heightMap pixel)[y * w + x]? = heightMap[y * w + x]?) ∧
    (∀ x y, x < min w h → y < min w h →
      (GenHeightMap w h heightMap pixel)[(y + (h - min w h) / 2) * w + (x + (w - min w h) / 2)]?
        = some (pixel (y * min w h + x))) ∧
    (GenHeightMap w h heightMap pixel).length = w * h := by
  have em : minDim w h = min w h := rfl
  refine ⟨⟨em, xOffset_eq w h, yOffset_eq w h⟩, ⟨?_, ?_, ?_, ?_⟩, ?_, ?_, ?_, ?_, ?_⟩
  · omega
  · omega
  · omega
  · omega
  · intro i hi
    rw [← dstIndex_explicit]
    exact ⟨rfl, dstIndex_lt hw hh (by rw [em]; exact hi)⟩
  · intro i j _ _ e
    rw [← dstIndex_explicit, ← dstIndex_explicit] at e
    exact dstIndex_inj hw hh e
  · intro x y hx _ hout
    rw [← xOffset_eq, ← yOffset_eq, ← em] at hout
    exact foldl_set_untouched _ _ _ _ _ (fun i hi => dstIndex_ne_outside hw hh hx hout hi)
  · intro x y hx hy
    have hi : flatIndex (min w h) x y < minDim w h * minDim w h := by
      rw [em]
      exact flatIndex_lt hx hy
    have hidx : dstIndex w h (flatIndex (min w h) x y)
        = (y + (h - min w h) / 2) * w + (x + (w - min w h) / 2) := by
      rw [dstIndex_explicit, flatIndex_mod y hx, flatIndex_div y hx]
    have key := foldl_set_written (dstIndex w h) pixel _ heightMap
      (flatIndex (min w h) x y) hi
      (fun k _ hik e => by have := dstIndex_inj hw hh e; omega)
      (by rw [hlen]; exact dstIndex_lt hw hh hi)
    rw [hidx] at key
    exact key
  · unfold GenHeightMap
    rw [foldl_set_length, hlen]

theorem GenHeightMap_writes_centred_square_witness :
    (minDim 4 2 = 2 ∧ xOffset 4 2 = 1 ∧ yOffset 4 2 = 0) ∧
    GenHeightMap 4 2 [(0 : ℚ), 0, 0, 0, 0, 0, 0, 0] (fun i : Nat => (i : ℚ) + 1)
      = [0, 1, 2, 0, 0, 3, 4, 0] ∧
    (∀ x y : Nat, x < 4 → y < 2 →
      ¬ ((4 - min 4 2) / 2 ≤ x ∧ x < (4 - min 4 2) / 2 + min 4 2 ∧
        (2 - min 4 2) / 2 ≤ y ∧ y < (2 - min 4 2) / 2 + min 4 2) →
      (GenHeightMap 4 2 [(0 : ℚ), 0, 0, 0, 0, 0, 0, 0] (fun i : Nat => (i : ℚ) + 1))[y * 4 + x]?
        = [(0 : ℚ), 0, 0, 0, 0, 0, 0, 0][y * 4 + x]?) ∧
    (∀ x y : Nat, x < min 4 2 → y < min 4 2 →
      (GenHeightMap 4 2 [(0 : ℚ), 0, 0, 0, 0, 0, 0, 0]
          (fun i : Nat => (i : ℚ) + 1))[(y + (2 - min 4 2) / 2) * 4 + (x + (4 - min 4 2) / 2)]?
        = some ((fun i : Nat => (i : ℚ) + 1) (y * min 4 2 + x))) :=
  ⟨by decide, by decide!,
    (GenHeightMap_writes_centred_square 4 2 [(0 : ℚ), 0, 0, 0, 0, 0, 0, 0]
      (fun i : Nat => (i : ℚ) + 1) (by decide) (by decide) (by decide)).2.2.2.2.1,
    (GenHeightMap_writes_centred_square 4 2 [(0 : ℚ), 0, 0, 0, 0, 0, 0, 0]
      (fun i : Nat => (i : ℚ) + 1) (by decide) (by decide) (by decide)).2.2.2.2.2.1⟩

end GenHeightMapLemmas

/-! ## Properties of `generateNoise` -/

section NoiseFilterLemmas

variable {α : Type}

theorem noiseBuffer_length [Zero α] (G : Nat → Nat → α) (w h : Nat) :
    (noiseBuffer G w h).length = w * h := by
  unfold noiseBuffer
  rw [foldl_set_length (fun i => i) (fun i => G (i % w) (i / w)), List.length_replicate]

theorem noiseBuffer_entry [Zero α] (G : Nat → Nat → α) {w h x y : Nat}
    (hx : x < w) (hy : y < h) : (noiseBuffer G w h)[y * w + x]? = some (G x y) := by
  have hi : flatIndex w x y < w * h := flatIndex_lt hx hy
  have key := foldl_set_written (fun i => i) (fun i => G (i % w) (i / w)) (w * h)
    (List.replicate (w * h) 0) (flatIndex w x y) hi (fun k _ hk => Nat.ne_of_gt hk)
    (by rw [List.length_replicate]; exact hi)
  simp only [flatIndex_mod y hx, flatIndex_div y hx] at key
  exact key

/-- C10: of the four blend modes only `Replace` has an effect.  With `Replace`,
`generateNoise` makes exactly one modifying call, `setHeightMap(buffer, w, h)`,
with a buffer of `w * h` entries whose entry at flat index `y * w + x` is
`GetNoise(x, y)` for every in-range cell; with `Multiply`, `Add` or `Subtract` it
makes no modifying call, so the terrain is unchanged whatever `setHeightMap` does. -/
theorem generateNoise_only_replace [Zero α] (seed : Int) (noiseType : NoiseType)
    (GetNoise : Int → NoiseType → Nat → Nat → α) (w h : Nat) :
    (∃ buffer : List α,
      generateNoise (NoiseFilterImpl.mk seed noiseType BlendMode.Replace) GetNoise w h
        = [TerrainCall.setHeightMap buffer w h] ∧
      buffer.length = w * h ∧
      ∀ x y, x < w → y < h → buffer[y * w + x]? = some (GetNoise seed noiseType x y)) ∧
    (generateNoise (NoiseFilterImpl.mk seed noiseType BlendMode.Multiply) GetNoise w h = [] ∧
      generateNoise (NoiseFilterImpl.mk seed noiseType BlendMode.Add) GetNoise w h = [] ∧
      generateNoise (NoiseFilterImpl.mk seed noiseType BlendMode.Subtract) GetNoise w h = []) ∧
    (∀ (τ : Type) (setHeightMap : τ → List α → Nat → Nat → τ) (terrain : τ),
      applyCalls setHeightMap terrain
        (generateNoise (NoiseFilterImpl.mk seed noiseType BlendMode.Multiply) GetNoise w h)
        = terrain ∧
      applyCalls setHeightMap terrain
        (generateNoise (NoiseFilterImpl.mk seed noiseType BlendMode.Add) GetNoise w h)
        = terrain ∧
      applyCalls setHeightMap terrain
        (generateNoise (NoiseFilterImpl.mk seed noiseType BlendMode.Subtract) GetNoise w h)
        = terrain) := by
  refine ⟨⟨noiseBuffer (GetNoise seed noiseType) w h, rfl, noiseBuffer_length _ w h, ?_⟩,
    ⟨rfl, rfl, rfl⟩, fun τ setHeightMap terrain => ⟨rfl, rfl, rfl⟩⟩
  intro x y hx hy
  exact noiseBuffer_entry _ hx hy

end NoiseFilterLemmas

/-! ## Flux scaling -/

section FluxLemmas

variable {α : Type} [LinearOrderedField α]

theorem rnd32_samples :
    rnd32 (1 / 10) = 13421773 / 134217728 ∧ rnd32 (1 / 100) = 5368709 / 536870912 ∧
    rnd32 (11 / 100) = 7381975 / 67108864 ∧ rnd32 (981 / 100) = 10286531 / 1048576 ∧
    rnd32 16777217 = 16777216 ∧ rnd32 16777219 = 16777220 ∧ rnd32 (-(1 / 3)) = -(11184811 / 33554432) ∧
    rnd32 (3 / 2 ^ 150) = 1 / 2 ^ 148 ∧ rnd32 (1 / 2 ^ 150) = 0 ∧ rnd32 1 = 1 := by
  decide!

end FluxLemmas

/-! ## Per-cell loops that push a water delta through `addWater` -/

section WaterLoops

variable {α : Type} [LinearOrder α] [Zero α] [Add α]

end WaterLoops

/-! ## Water transport and evaporation -/

section WaterStages

variable {α : Type} [LinearOrderedField α]

end WaterStages

/-! ## Conservation of water by the pipe fluxes -/

section Conservation

variable {α : Type} [LinearOrderedField α]

end Conservation

/-! ## Sediment transport -/

section Sediment

variable {α : Type} [LinearOrderedField α]

theorem erodeDeposit_nonneg (C S kd ke : α) (hS : 0 ≤ S) (hC : 0 ≤ C)
    (hkd1 : kd ≤ 1) (hke0 : 0 ≤ ke) : 0 ≤ (erodeDeposit C S kd ke).1 := by
  unfold erodeDeposit
  split_ifs with h1 h2
  · simp only
    have := mul_nonneg hke0 (sub_nonneg.mpr h1.le)
    linarith
  · simp only
    have := mul_nonneg (sub_nonneg.mpr hkd1) (sub_nonneg.mpr h2.le)
    linarith
  · exact hS

theorem clampCoord_bounds (n : Nat) (hn : 1 ≤ n) (p : α) :
    0 ≤ clampCoord n p ∧ clampCoord n p < (n : α) := by
  have hn1 : (1 : α) ≤ (n : α) := by exact_mod_cast hn
  unfold clampCoord
  split_ifs with h1 h2
  · exact ⟨le_refl _, by linarith⟩
  · exact ⟨by linarith, by linarith⟩
  · exact ⟨not_lt.mp h1, not_le.mp h2⟩

theorem sampleBilinear_nonneg [FloorRing α] (w h : Nat) (hw : 1 ≤ w) (hh : 1 ≤ h)
    (S : Nat → Nat → α) (hS : ∀ x y, x < w → y < h → 0 ≤ S x y) (px py : α) :
    0 ≤ sampleBilinear w h S px py := by
  obtain ⟨hx0, hxw⟩ := clampCoord_bounds w hw px
  obtain ⟨hy0, hyh⟩ := clampCoord_bounds h hh py
  have fx : Nat.floor (clampCoord w px) < w := (Nat.floor_lt hx0).mpr hxw
  have fy : Nat.floor (clampCoord h py) < h := (Nat.floor_lt hy0).mpr hyh
  have fx1 : min (Nat.floor (clampCoord w px) + 1) (w - 1) < w := by omega
  have fy1 : min (Nat.floor (clampCoord h py) + 1) (h - 1) < h := by omega
  have tx0 : 0 ≤ clampCoord w px - (Nat.floor (clampCoord w px) : α) :=
    sub_nonneg.mpr (Nat.floor_le hx0)
  have ty0 : 0 ≤ clampCoord h py - (Nat.floor (clampCoord h py) : α) :=
    sub_nonneg.mpr (Nat.floor_le hy0)
  have tx1 : 0 ≤ 1 - (clampCoord w px - (Nat.floor (clampCoord w px) : α)) := by
    have := Nat.lt_floor_add_one (clampCoord w px)
    linarith
  have ty1 : 0 ≤ 1 - (clampCoord h py - (Nat.floor (clampCoord h py) : α)) := by
    have := Nat.lt_floor_add_one (clampCoord h py)
    linarith
  unfold sampleBilinear
  simp only
  have s00 := hS _ _ fx fy
  have s10 := hS _ _ fx1 fy
  have s01 := hS _ _ fx fy1
  have s11 := hS _ _ fx1 fy1
  exact add_nonneg
    (mul_nonneg ty1 (add_nonneg (mul_nonneg tx1 s00) (mul_nonneg tx0 s10)))
    (mul_nonneg ty0 (add_nonneg (mul_nonneg tx1 s01) (mul_nonneg tx0 s11)))

/-- C6 (amended): for a grid state with `S(c) ≥ 0` in every cell, `depositionK(c)`
and `erosionK(c)` in `[0, 1]`, `|V(c)|` the 2-norm of the velocity, and
`carryCapacityK(c) · T(c) ≥ 0` in every cell (so that the capacity `C(c)` is
non-negative), every cell has `S(c) ≥ 0` after `TransportSediment`. -/
theorem sediment_nonneg_of_capacity_nonneg [FloorRing α] (P : Params α) (w h : Nat)
    (carryCapacityK depositionK erosionK T speed Vx Vy S : Nat → Nat → α) (g : Grids α)
    (hS : ∀ x y, x < w → y < h → 0 ≤ S x y)
    (hkd : ∀ x y, x < w → y < h → 0 ≤ depositionK x y ∧ depositionK x y ≤ 1)
    (hke : ∀ x y, x < w → y < h → 0 ≤ erosionK x y ∧ erosionK x y ≤ 1)
    (hnorm : ∀ x y, x < w → y < h → IsNorm2 (Vx x y) (Vy x y) (speed x y))
    (hcap : ∀ x y, x < w → y < h → 0 ≤ carryCapacityK x y * T x y) :
    ∀ x y, x < w → y < h →
      0 ≤ (TransportSediment P w h carryCapacityK depositionK erosionK T speed Vx Vy S g).1 x y := by
  intro x y hx hy
  have hw : 1 ≤ w := by omega
  have hh : 1 ≤ h := by omega
  unfold TransportSediment advect
  simp only
  apply sampleBilinear_nonneg w h hw hh
  intro x' y' hx' hy'
  unfold erodedSediment
  apply erodeDeposit_nonneg
  · exact hS x' y' hx' hy'
  · unfold capacity
    exact mul_nonneg (hcap x' y' hx' hy') (hnorm x' y' hx' hy').1
  · exact (hkd x' y' hx' hy').2
  · exact (hke x' y' hx' hy').1

theorem sediment_nonneg_of_capacity_nonneg_witness :
    0 ≤ (TransportSediment defaultParams 2 2 (constField (1 / 100)) (constField (1 / 10))
      (constField (1 / 10)) (constField 1) (constField 5) (constField 3) (constField 4)
      (constField (1 / 10)) slopedGrids).1 0 0 :=
  sediment_nonneg_of_capacity_nonneg defaultParams 2 2 (constField (1 / 100))
    (constField (1 / 10)) (constField (1 / 10)) (constField 1) (constField 5) (constField 3)
    (constField 4) (constField (1 / 10)) slopedGrids
    (by intro x y _ _; norm_num [constField])
    (by intro x y _ _; norm_num [constField])
    (by intro x y _ _; norm_num [constField])
    (by intro x y _ _; norm_num [constField, IsNorm2])
    (by intro x y _ _; norm_num [constField])
    0 0 (by decide) (by decide)

/-- C6 (as stated) fails: on the `2 × 2` grid with `S ≡ 0`, velocity `(3, 4)` of
norm `5`, tilt `1`, `depositionK = erosionK = 0.1` and the negative capacity
multiplier `carryCapacityK = −0.01`, every hypothesis of the claim holds and the
sediment of cell `(0, 0)` after `TransportSediment` is `−1/200 < 0`. -/
theorem sediment_negative_with_negative_capacity :
    (∀ x y, x < 2 → y < 2 → 0 ≤ constField 0 x y) ∧
    (∀ x y, x < 2 → y < 2 → 0 ≤ constField (1 / 10) x y ∧ constField (1 / 10) x y ≤ 1) ∧
    (∀ x y, x < 2 → y < 2 → IsNorm2 (constField 3 x y) (constField 4 x y) (constField 5 x y)) ∧
    (TransportSediment defaultParams 2 2 (constField (-(1 / 100))) (constField (1 / 10))
      (constField (1 / 10)) (constField 1) (constField 5) (constField 3) (constField 4)
      (constField 0) slopedGrids).1 0 0 = -(1 / 200) ∧
    ¬ (0 ≤ (TransportSediment defaultParams 2 2 (constField (-(1 / 100))) (constField (1 / 10))
      (constField (1 / 10)) (constField 1) (constField 5) (constField 3) (constField 4)
      (constField 0) slopedGrids).1 0 0) := by
  have hval : (TransportSediment defaultParams 2 2 (constField (-(1 / 100)))
      (constField (1 / 10)) (constField (1 / 10)) (constField 1) (constField 5) (constField 3)
      (constField 4) (constField 0) slopedGrids).1 0 0 = -(1 / 200) := by
    norm_num [TransportSediment, advect, sampleBilinear, clampCoord, erodedSediment,
      erodeDeposit, capacity, constField, defaultParams]
  refine ⟨?_, ?_, ?_, hval, ?_⟩
  · intro x y _ _; norm_num [constField]
  · intro x y _ _; norm_num [constField]
  · intro x y _ _; norm_num [constField, IsNorm2]
  · rw [hval]; norm_num

end Sediment

end TinyErode
